import Mathlib

/-!
Verification of the npx resolution-and-execution engine.

Shallow embedding of src/index.js: each definition below mirrors one
function (or one expression site) of the source, with JavaScript truthiness
made explicit and asynchronous results modelled as Except values.
-/

/-- Platform search-path separator, from line 12 of the source:
`const PATH_SEP = process.platform === 'win32' ? ';' : ':'`. -/
def PATH_SEP (win32 : Bool) : String := if win32 then ";" else ":"

/-- The separator as a single character (both candidate separators are
one character long), used to split a search-path string into entries. -/
def sepChar (win32 : Bool) : Char := if win32 then ';' else ':'

/-- JavaScript truthiness of a possibly-absent string value:
`undefined`, `false` and the empty string are falsy. -/
def jsTruthyStr : Option String → Bool
  | none => false
  | some s => s != ""

/-- JavaScript `a || b` on possibly-absent string values. -/
def jsOrStr (a b : Option String) : Option String :=
  if jsTruthyStr a then a else b

/-- JavaScript `e || d` where `e` is a possibly-absent numeric exit code:
`undefined` and `0` are falsy and give the default. -/
def jsOrExit : Option Nat → Nat → Nat
  | some n, d => if n = 0 then d else n
  | none, d => d

/-- Truthiness of a possibly-absent exit code (`undefined` and `0` falsy). -/
def jsTruthyExit : Option Nat → Bool
  | some n => n != 0
  | none => false

/-- JavaScript array lookup `bins[key]` where `key` is a string property
name (or `undefined`): it yields an element only when the key is the
canonical decimal numeral of an index inside the array. -/
def jsArrayGetStr (bins : List String) (key : Option String) : Option String :=
  match key with
  | none => none
  | some s =>
    (List.range bins.length).findSome? (fun n => if toString n = s then bins.get? n else none)

/-- Model of Node's `path.resolve(dir, rel)` for the uses in the source:
an absolute second argument wins, a relative one is joined onto `dir`. -/
def pathResolve (dir rel : String) : String :=
  if rel.data.head? = some '/' then rel else dir ++ "/" ++ rel

/-- ASCII lower-casing of a character code (the case folding the `i` flag
performs on ASCII names). -/
def toLowerCode (n : Nat) : Nat :=
  if 65 ≤ n ∧ n ≤ 90 then n + 32 else n

/-- Case-folded character codes of a string. -/
def lowerCodes (s : String) : List Nat :=
  s.data.map (fun c => toLowerCode c.toNat)

/-- Semantics of the regular expression built on line 88,
`new RegExp('^' + command + '(?:\\.cmd)?$', 'i')`, applied to an entry:
the entry equals the command case-insensitively, optionally followed by
the `.cmd` suffix (for commands without regular-expression metacharacters). -/
def cmdMatch (command entry : String) : Bool :=
  lowerCodes entry == lowerCodes command || lowerCodes entry == lowerCodes (command ++ ".cmd")

/-- The readdir result handler of ensurePackages (lines 87-90 of the
source): find the entry matching the command, then
`path.resolve(results.bin, bins[matching] || bins[0])`.  Returns none when
the expression would throw (empty listing). -/
def locateBin (command binDir : String) (bins : List String) : Option String :=
  let matching := bins.find? (fun b => cmdMatch command b)
  (jsOrStr (jsArrayGetStr bins matching) bins.head?).map (fun x => pathResolve binDir x)

/-- Characters of the last path component (after the last slash). -/
def afterLastSlash (s : String) : List Char :=
  (s.data.reverse.takeWhile (fun c => c ≠ '/')).reverse

/-- Extension of a basename, following Node's `path.extname`: the suffix
from the last dot, empty when there is no dot or the dot is the first
character of the basename. -/
def extnameAux (b : List Char) : List Char :=
  let rev := b.reverse
  let pre := rev.takeWhile (fun c => c ≠ '.')
  if pre.length = rev.length then []
  else if pre.length + 1 = rev.length then []
  else '.' :: pre.reverse

/-- Model of Node's `path.extname`. -/
def extname (s : String) : String :=
  String.mk (extnameAux (afterLastSlash s))

/-- The fields of a parsed package.json that findNodeScript consults. -/
structure PackageManifest where
  bin : Option String
  main : Option String
deriving DecidableEq, Repr

/-- A filesystem node as observed by findNodeScript: a regular file with
its byte content, or a directory carrying the result of requiring its
package.json (`none` when the manifest is unreadable or malformed). -/
inductive FsNode where
  | file (content : List Nat)
  | dir (manifest : Option PackageManifest)
deriving DecidableEq, Repr

/-- Errors surfaced by the embedded functions: a "command not found"
error carrying its full message, or a filesystem-level error carrying a
code string. -/
inductive NpxError where
  | notFound (message : String)
  | fsError (code : String)
deriving DecidableEq, Repr

deriving instance DecidableEq for Except

/-- The shebang line of line 272 of the source: `'#!/usr/bin/env node\n'`. -/
def shebangLine : String := "#!/usr/bin/env node\n"

/-- Byte content of the shebang line (all its characters are ASCII, so
code points and bytes coincide). -/
def shebangBytes : List Nat := shebangLine.data.map Char.toNat

/-- Number of bytes read by the sniff, from `const bytecount = line.length`. -/
def bytecount : Nat := shebangLine.length

/-- Content of the zero-initialized buffer `Buffer.alloc(bytecount)` after
`fs.read(fd, buf, 0, bytecount, 0)` on a file with the given bytes: the
first `bytecount` bytes of the file, the rest of the buffer still zero. -/
def sniffBuf (content : List Nat) : List Nat :=
  content.take bytecount ++ List.replicate (bytecount - (content.take bytecount).length) 0

/-- The comparison `buf.toString('utf8') === line`: since the shebang line
is pure ASCII without NUL bytes, the decoded strings are equal exactly when
the buffer bytes equal the line's bytes. -/
def sniffMatches (content : List Nat) : Bool :=
  sniffBuf content == shebangBytes

/-- The entry-point expression of line 260, `pkg.bin || pkg.main || 'index.js'`. -/
def entryPoint (pkg : PackageManifest) : String :=
  (jsOrStr pkg.bin (jsOrStr pkg.main (some "index.js"))).getD "index.js"

/-- Embedding of findNodeScript (lines 249-287 of the source).  The
filesystem is a map from paths to nodes (`none` makes `fs.stat` reject
with ENOENT); `fuel` bounds the directory recursion (the source recurses
unboundedly; every claim is settled at sufficient fuel).  The result is
`.ok (some p)` for an in-process-loadable script at `p`, `.ok none` for a
falsy (not loadable) outcome, `.error e` for a rejection. -/
def findNodeScript (fsys : String → Option FsNode) (isLocal win32 : Bool) :
    Nat → Option String → Except NpxError (Option String)
  | _, none => .ok none
  | 0, some _ => .error (.fsError "ELOOP")
  | fuel + 1, some existing =>
    if existing = "" then .ok none
    else
      match fsys existing with
      | none => .error (.fsError "ENOENT")
      | some node =>
        if isLocal && (extname existing == ".js") then .ok (some existing)
        else
          match node with
          | .dir manifest =>
            if isLocal then
              match manifest with
              | none => .error (.notFound ("command not found: " ++ existing))
              | some pkg =>
                match findNodeScript fsys isLocal win32 fuel (some (pathResolve existing (entryPoint pkg))) with
                | .ok (some script) => .ok (some script)
                | .ok none => .error (.notFound ("command not found: " ++ pathResolve existing (entryPoint pkg)))
                | .error e => .error e
            else if !win32 then .error (.fsError "EISDIR")
            else .ok none
          | .file content =>
            if !win32 then .ok (if sniffMatches content then some existing else none)
            else .ok none

/-- The resolution flags consulted by getExistingPath. -/
structure NpxOpts where
  isLocal : Bool
  cmdHadVersion : Bool
  packageRequested : Bool
  ignoreExisting : Bool
  install : Bool
deriving DecidableEq, Repr

/-- An error object from the `which` search, carrying a code string and a
possibly-attached exit code. -/
structure SysErr where
  code : String
  exitCode : Option Nat
deriving DecidableEq, Repr

/-- Outcome of the `which(command)` search-path lookup. -/
inductive WhichOutcome where
  | found (p : String)
  | failed (e : SysErr)
deriving DecidableEq, Repr

/-- Embedding of getExistingPath (lines 156-175 of the source).
`.ok (some p)` models resolving to a path, `.ok none` models resolving to
a falsy value (`false`, or the swallowed not-found), `.error` a rejection. -/
def getExistingPath (command : String) (opts : NpxOpts) (whichResult : WhichOutcome) :
    Except SysErr (Option String) :=
  if opts.isLocal then .ok (some command)
  else if opts.cmdHadVersion || opts.packageRequested || opts.ignoreExisting then .ok none
  else
    match whichResult with
    | .found p => .ok (some p)
    | .failed e =>
      if e.code = "ENOENT" then
        if opts.install = false then .error { e with exitCode := some 127 }
        else .ok none
      else .error e

/-- An error object thrown by the child-process layer, as consumed by
installPackages and execCommand. -/
structure ChildErr where
  message : String
  exitCode : Option Nat
  isOperational : Bool
deriving DecidableEq, Repr

/-- The final catch of npx (line 110): `process.exitCode = err.exitCode || 1`. -/
def finalCatchExitCode (err : ChildErr) : Nat :=
  jsOrExit err.exitCode 1

/-- The failure branch of installPackages (lines 209-214): when the error
carries a truthy exit code, its message is replaced by one naming the
specifiers and the code; the error is then re-thrown unchanged otherwise. -/
def installWrapError (specs : List String) (err : ChildErr) : ChildErr :=
  match err.exitCode with
  | some c =>
    if c ≠ 0 then
      { err with message := "Install for " ++ String.intercalate "," specs ++ " failed with code " ++ toString c }
    else err
  | none => err

/-- The catch of the spawn branch of execCommand (lines 234-243):
`err.isOperational && err.exitCode` keeps the failure as this process's
exit code (`.ok c`), anything else is re-thrown (`.error err`). -/
def execSpawnCatch (err : ChildErr) : Except ChildErr Nat :=
  match err.exitCode with
  | some c => if err.isOperational && (c != 0) then .ok c else .error err
  | none => .error err

/-- The two execution strategies of the Executor. -/
inductive ExecutionStrategy where
  | inProcess
  | spawned
deriving DecidableEq, Repr

/-- The branch condition of execCommand (line 222):
`existing && Module.runMain && !argv.shell && existing !== process.argv[1]`,
where `existing` is the classifier's result and `argv1` is the currently
running entry script. -/
def execStrategy (runMain shell : Bool) (argv1 : String) (existing : Option String) :
    ExecutionStrategy :=
  match existing with
  | some s => if (s != "") && runMain && !shell && (s != argv1) then .inProcess else .spawned
  | none => .spawned

/-- The install decision of npx (line 65):
`(!existing && !argv.call) || argv.packageRequested`. -/
def installNeeded (existing : Option String) (call packageRequested : Bool) : Bool :=
  (!jsTruthyStr existing && !call) || packageRequested

/-- The project-local prepend of line 44:
`process.env.PATH = local + PATH_SEP + process.env.PATH`. -/
def prependLocalPath (localBin ambient : String) (win32 : Bool) : String :=
  localBin ++ PATH_SEP win32 ++ ambient

/-- The post-install prepend of line 146:
`process.env.PATH = bins + PATH_SEP + process.env.PATH`. -/
def prependInstallPath (binsDir ambient : String) (win32 : Bool) : String :=
  binsDir ++ PATH_SEP win32 ++ ambient

/-- Splitting a character list at a separator character (the entries of a
search-path string; a simple model of how the platform consults PATH). -/
def splitSep (sep : Char) : List Char → List (List Char)
  | [] => [[]]
  | c :: cs =>
    if c = sep then [] :: splitSep sep cs
    else
      match splitSep sep cs with
      | [] => [[c]]
      | g :: gs => (c :: g) :: gs

/-- The ordered directory entries of a search-path string. -/
def pathEntries (win32 : Bool) (path : String) : List String :=
  (splitSep (sepChar win32) path.data).map String.mk

/-- A search-path lookup: the first entry that provides the command wins. -/
def lookupPath (win32 : Bool) (path : String) (provides : String → Bool) : Option String :=
  (pathEntries win32 path).find? provides

/-- Concrete filesystem for the directory-classification scenario: a local
directory whose manifest maps its executable to `cli`, a file without a
shebang. -/
def fsC2 : String → Option FsNode := fun p =>
  if p = "/d" then some (.dir (some { bin := some "cli", main := none }))
  else if p = "/d/cli" then some (.file [35, 33])
  else none

/-- Concrete filesystem for the directory scenario with an unreadable
manifest. -/
def fsC2bad : String → Option FsNode := fun p =>
  if p = "/e" then some (.dir none) else none

/-- Byte content of a case variant of the shebang line. -/
def caseVariantBytes : List Nat :=
  "#!/usr/bin/env NODE\n".data.map Char.toNat

/-- Concrete filesystem for the shebang-sniff scenario: one file starting
with the exact shebang line, one with a case variant. -/
def fs4 : String → Option FsNode := fun p =>
  if p = "/s" then some (.file shebangBytes)
  else if p = "/u" then some (.file caseVariantBytes)
  else none

/-- Concrete filesystem for the takeover-strategy scenario. -/
def fs9 : String → Option FsNode := fun p =>
  if p = "/f" then some (.file shebangBytes) else none

/-- Concrete filesystem for the short-file scenario: a two-byte file. -/
def fs10 : String → Option FsNode := fun p =>
  if p = "/short" then some (.file [35, 33]) else none

/-- Concrete flag set with everything off: plain resolution with fallback
installation disabled only by the install flag itself. -/
def opts6 : NpxOpts := ⟨false, false, false, false, false⟩

/-! Helper lemmas. -/

theorem splitSep_ne_nil (sep : Char) (l : List Char) : splitSep sep l ≠ [] := by
  induction l with
  | nil => simp [splitSep]
  | cons c cs ih =>
    simp only [splitSep]
    split
    · simp
    · split
      · simp
      · simp

theorem splitSep_append (sep : Char) (a b : List Char) (ha : sep ∉ a) :
    splitSep sep (a ++ sep :: b) = a :: splitSep sep b := by
  induction a with
  | nil => simp [splitSep]
  | cons c a ih =>
    have hc : ¬(c = sep) := fun h => ha (h ▸ List.mem_cons_self c a)
    have ha2 : sep ∉ a := fun h => ha (List.mem_cons_of_mem c h)
    simp only [List.cons_append, splitSep, if_neg hc, List.append_eq, ih ha2]

theorem sniffMatches_iff (content : List Nat) :
    sniffMatches content = true ↔ content.take bytecount = shebangBytes := by
  unfold sniffMatches sniffBuf
  rw [beq_iff_eq]
  constructor
  · intro h
    by_cases hlen : (content.take bytecount).length = bytecount
    · simp [hlen] at h
      exact h
    · exfalso
      have hle : (content.take bytecount).length ≤ bytecount := by
        simpa using List.length_take_le bytecount content
      have hlt : (content.take bytecount).length < bytecount := lt_of_le_of_ne hle hlen
      have h0 : (0 : Nat) ∈ content.take bytecount ++
          List.replicate (bytecount - (content.take bytecount).length) 0 := by
        refine List.mem_append_right _ (List.mem_replicate.mpr ⟨?_, rfl⟩)
        omega
      rw [h] at h0
      have hns : (0 : Nat) ∉ shebangBytes := by decide
      exact hns h0
  · intro h
    rw [h]
    decide

theorem sniffMatches_eq_false_of_short (content : List Nat) (h : content.length < bytecount) :
    sniffMatches content = false := by
  rw [Bool.eq_false_iff, Ne, sniffMatches_iff]
  intro hc
  have h1 : (content.take bytecount).length = shebangBytes.length := by rw [hc]
  have h2 : shebangBytes.length = bytecount := by decide
  rw [List.length_take, h2] at h1
  omega

/-! Claim theorems. -/

/-- C1: evaluation of the CommandLocator matching code at the failing
input.  With installed binaries ["bar", "Foo.cmd"] and requested command
"foo", the entry "Foo.cmd" matches the command pattern, yet the code
resolves to the first entry "bar": the expression `bins[matching]`
indexes the listing array with the matched string itself (an undefined
property), so the computed match is discarded and `bins[0]` always wins.
The spec's own example (match in first position) succeeds only by
coincidence. -/
theorem C1_locateBin_eval :
    cmdMatch "foo" "Foo.cmd" = true ∧
    locateBin "foo" "/bins" ["bar", "Foo.cmd"] = some "/bins/bar" ∧
    locateBin "foo" "/bins" ["bar", "Foo.cmd"] ≠ some "/bins/Foo.cmd" ∧
    locateBin "foo" "/bins" ["Foo.cmd", "bar"] = some "/bins/Foo.cmd" := by
  refine ⟨by decide, by decide, by decide, by decide⟩

/-- C3 counterexample: an invocation whose command is not satisfied
(`existing` falsy) but which runs in lifecycle-call mode (`argv.call`
set) without an explicitly requested package does not trigger
PackageInstaller, contradicting the claim that in every case other than
"satisfied and not forced" the installer runs. -/
theorem C3_counterexample : installNeeded none true false = false := by decide

/-- C3 amended: PackageInstaller runs exactly when the package was
explicitly requested, or when no existing path satisfied the command and
the lifecycle-call mode is not active; in particular a satisfied command
without an explicit package request never triggers the installer. -/
theorem C3_install_decision (existing : Option String) (call packageRequested : Bool) :
    (installNeeded existing call packageRequested = true ↔
      packageRequested = true ∨ (jsTruthyStr existing = false ∧ call = false)) ∧
    (jsTruthyStr existing = true → packageRequested = false →
      installNeeded existing call packageRequested = false) := by
  cases h : jsTruthyStr existing <;> cases call <;> cases packageRequested <;>
    simp [installNeeded, h]

/-- C3 witness: a command already satisfied on the search path, with no
explicit package request, skips installation. -/
theorem C3_install_decision_witness :
    installNeeded (some "/usr/bin/git") false false = false :=
  (C3_install_decision (some "/usr/bin/git") false false).2 (by decide) rfl

/-- C7: when the install subprocess fails with a non-zero exit code, the
escalated error's message names the specifiers and the code, the exit
code is preserved on the error, and the final catch sets the process
exit code to that same code. -/
theorem C7_install_failure (specs : List String) (err : ChildErr) (c : Nat)
    (hc : err.exitCode = some c) (hnz : c ≠ 0) :
    (installWrapError specs err).message =
      "Install for " ++ String.intercalate "," specs ++ " failed with code " ++ toString c ∧
    (installWrapError specs err).exitCode = some c ∧
    finalCatchExitCode (installWrapError specs err) = c := by
  simp [installWrapError, hc, hnz, finalCatchExitCode, jsOrExit]

/-- C7 witness: an install of left-pad@1.3.0 failing with exit code 1
surfaces the message naming the specifier and code 1, and exits with 1. -/
theorem C7_install_failure_witness :
    (installWrapError ["left-pad@1.3.0"] ⟨"boom", some 1, false⟩).message =
      "Install for " ++ String.intercalate "," ["left-pad@1.3.0"] ++ " failed with code " ++ toString 1 ∧
    (installWrapError ["left-pad@1.3.0"] ⟨"boom", some 1, false⟩).exitCode = some 1 ∧
    finalCatchExitCode (installWrapError ["left-pad@1.3.0"] ⟨"boom", some 1, false⟩) = 1 :=
  C7_install_failure ["left-pad@1.3.0"] ⟨"boom", some 1, false⟩ 1 rfl (by decide)

/-- C8: in the spawn branch, a child failure marked operational and
carrying a (truthy) exit code becomes this process's exit code with no
error raised; every other child failure is re-thrown unchanged, so that
the final catch surfaces its message with a non-zero exit code — the
attached one, else 1. -/
theorem C8_spawn_catch (err : ChildErr) :
    (∀ c, err.exitCode = some c → c ≠ 0 → err.isOperational = true →
      execSpawnCatch err = .ok c) ∧
    (err.isOperational = false ∨ err.exitCode = none ∨ err.exitCode = some 0 →
      execSpawnCatch err = .error err) ∧
    (finalCatchExitCode err ≠ 0 ∧
      ∀ c, err.exitCode = some c → c ≠ 0 → finalCatchExitCode err = c) := by
  obtain ⟨m, ec, op⟩ := err
  refine ⟨?_, ?_, ?_, ?_⟩
  · intro c hc hnz hop
    simp_all [execSpawnCatch]
  · intro h
    rcases h with h | h | h <;> simp_all [execSpawnCatch] <;> cases ec <;> simp_all [execSpawnCatch]
  · cases ec with
    | none => simp [finalCatchExitCode, jsOrExit]
    | some c =>
      by_cases h : c = 0 <;> simp [finalCatchExitCode, jsOrExit, h]
  · intro c hc hnz
    simp_all [finalCatchExitCode, jsOrExit]

/-- C8 witness: an operational child failure with exit code 3 makes the
system exit with code 3 and raise no further error. -/
theorem C8_spawn_catch_witness :
    execSpawnCatch ⟨"exit 3", some 3, true⟩ = .ok 3 :=
  (C8_spawn_catch ⟨"exit 3", some 3, true⟩).1 3 rfl (by decide) rfl

/-- C2 counterexample: a local directory target `/d` whose readable
manifest maps its executable to the extensionless, shebang-less file
`/d/cli` makes the recursive classification yield no script; the
escalated "command not found" error names the computed entry point
`/d/cli`, not the original directory `/d` as the claim states. -/
theorem C2_counterexample :
    findNodeScript fsC2 true false 2 (some "/d") =
      .error (.notFound "command not found: /d/cli") ∧
    "command not found: /d/cli" ≠ "command not found: /d" := by
  exact ⟨by decide, by decide⟩

/-- C2 amended: when classifying a request-marked-local directory, an
unreadable or malformed manifest escalates a "command not found" error
naming the original directory, while a readable manifest whose computed
entry point recursively classifies to no script escalates a "command not
found" error naming that entry point (the inner throw happens inside the
asynchronous continuation, outside the synchronous try/catch). -/
theorem C2_directory_errors (fsys : String → Option FsNode) (win32 : Bool) (fuel : Nat)
    (d : String) (m : Option PackageManifest)
    (hfs : fsys d = some (.dir m)) (hne : d ≠ "") (hext : extname d ≠ ".js") :
    (m = none →
      findNodeScript fsys true win32 (fuel + 1) (some d) =
        .error (.notFound ("command not found: " ++ d))) ∧
    (∀ pkg, m = some pkg →
      findNodeScript fsys true win32 fuel (some (pathResolve d (entryPoint pkg))) = .ok none →
      findNodeScript fsys true win32 (fuel + 1) (some d) =
        .error (.notFound ("command not found: " ++ pathResolve d (entryPoint pkg)))) := by
  have hbe : (extname d == ".js") = false := beq_eq_false_iff_ne.mpr hext
  constructor
  · intro hm
    subst hm
    simp [findNodeScript, if_neg hne, hfs, hbe]
  · intro pkg hm hrec
    subst hm
    simp [findNodeScript, if_neg hne, hfs, hbe, hrec]

/-- C2 witness: the unreadable-manifest directory `/e` escalates naming
`/e` itself; the readable-manifest directory `/d` with unresolvable entry
point escalates naming the entry point. -/
theorem C2_directory_errors_witness :
    findNodeScript fsC2bad true false 1 (some "/e") =
      .error (.notFound ("command not found: " ++ "/e")) ∧
    findNodeScript fsC2 true false 2 (some "/d") =
      .error (.notFound ("command not found: " ++
        pathResolve "/d" (entryPoint { bin := some "cli", main := none }))) :=
  ⟨(C2_directory_errors fsC2bad false 0 "/e" none (by decide) (by decide) (by decide)).1 rfl,
   (C2_directory_errors fsC2 false 1 "/d" (some { bin := some "cli", main := none })
      (by decide) (by decide) (by decide)).2 { bin := some "cli", main := none } rfl (by decide)⟩

/-- C4: the shebang sniff reads exactly the 20-byte length of the line
`#!/usr/bin/env node\n`; on POSIX an existing non-directory file
classifies as in-process-loadable exactly when its leading bytes equal
that line (so any case or trailing-whitespace variant fails), and on
win32 the sniff is skipped and the file never classifies as loadable. -/
theorem C4_shebang_sniff (fsys : String → Option FsNode) (win32 : Bool) (p : String)
    (content : List Nat) (hfs : fsys p = some (.file content)) (hne : p ≠ "") :
    (bytecount = 20 ∧ shebangBytes.length = 20) ∧
    (win32 = false → content.take bytecount = shebangBytes →
      findNodeScript fsys false win32 1 (some p) = .ok (some p)) ∧
    (win32 = false → content.take bytecount ≠ shebangBytes →
      findNodeScript fsys false win32 1 (some p) = .ok none) ∧
    (win32 = true → findNodeScript fsys false win32 1 (some p) = .ok none) := by
  refine ⟨by decide, ?_, ?_, ?_⟩
  · intro hw hsheb
    subst hw
    have hs : sniffMatches content = true := (sniffMatches_iff content).mpr hsheb
    simp [findNodeScript, if_neg hne, hfs, hs]
  · intro hw hsheb
    subst hw
    have hs : sniffMatches content = false := by
      rw [Bool.eq_false_iff, Ne, sniffMatches_iff]
      exact hsheb
    simp [findNodeScript, if_neg hne, hfs, hs]
  · intro hw
    subst hw
    simp [findNodeScript, if_neg hne, hfs]

/-- C4 witness: a file starting with the exact shebang line classifies as
loadable, a case variant of the same length does not, and on win32 even
the exact line does not. -/
theorem C4_shebang_sniff_witness :
    findNodeScript fs4 false false 1 (some "/s") = .ok (some "/s") ∧
    findNodeScript fs4 false false 1 (some "/u") = .ok none ∧
    findNodeScript fs4 false true 1 (some "/s") = .ok none :=
  ⟨(C4_shebang_sniff fs4 false "/s" shebangBytes (by decide) (by decide)).2.1 rfl (by decide),
   (C4_shebang_sniff fs4 false "/u" caseVariantBytes (by decide) (by decide)).2.2.1 rfl (by decide),
   (C4_shebang_sniff fs4 true "/s" shebangBytes (by decide) (by decide)).2.2.2 rfl⟩

/-- C10: on POSIX, sniffing an existing regular file shorter than the
20-byte shebang line raises no error and classifies the file as not
in-process-loadable: the short read leaves zero bytes in the buffer, the
comparison with the NUL-free shebang line fails, and findNodeScript
resolves to a falsy result. -/
theorem C10_short_file (fsys : String → Option FsNode) (isLocal : Bool) (p : String)
    (content : List Nat) (hfs : fsys p = some (.file content)) (hne : p ≠ "")
    (hext : isLocal = true → extname p ≠ ".js") (hshort : content.length < bytecount) :
    findNodeScript fsys isLocal false 1 (some p) = .ok none := by
  have hs : sniffMatches content = false := sniffMatches_eq_false_of_short content hshort
  cases isLocal with
  | false => simp [findNodeScript, if_neg hne, hfs, hs]
  | true =>
    have hbe : (extname p == ".js") = false := beq_eq_false_iff_ne.mpr (hext rfl)
    simp [findNodeScript, if_neg hne, hfs, hs, hbe]

/-- C10 witness: a two-byte file resolves, without error, to a falsy
(not loadable) classification. -/
theorem C10_short_file_witness :
    findNodeScript fs10 false false 1 (some "/short") = .ok none :=
  C10_short_file fs10 false "/short" [35, 33] (by decide) (by decide) (by decide) (by decide)

/-- C6: getExistingPath returns the command itself for an explicitly
local request; returns a falsy result under a version pin, an explicit
package request, or ignore-existing; otherwise consults the search path,
swallowing a not-found miss into a falsy result unless fallback
installation is disabled, in which case the miss escalates carrying exit
code 127; any other search error propagates unchanged. -/
theorem C6_getExistingPath (opts : NpxOpts) (command : String) (w : WhichOutcome) :
    (opts.isLocal = true → getExistingPath command opts w = .ok (some command)) ∧
    (opts.isLocal = false →
      (opts.cmdHadVersion || opts.packageRequested || opts.ignoreExisting) = true →
      getExistingPath command opts w = .ok none) ∧
    (opts.isLocal = false →
      (opts.cmdHadVersion || opts.packageRequested || opts.ignoreExisting) = false →
      ((∀ p, w = .found p → getExistingPath command opts w = .ok (some p)) ∧
       (∀ e, w = .failed e → e.code = "ENOENT" → opts.install ≠ false →
         getExistingPath command opts w = .ok none) ∧
       (∀ e, w = .failed e → e.code = "ENOENT" → opts.install = false →
         getExistingPath command opts w = .error { e with exitCode := some 127 }) ∧
       (∀ e, w = .failed e → e.code ≠ "ENOENT" →
         getExistingPath command opts w = .error e))) := by
  refine ⟨?_, ?_, ?_⟩
  · intro h
    simp [getExistingPath, h]
  · intro h1 h2
    simp [getExistingPath, h1, h2]
  · intro h1 h2
    refine ⟨?_, ?_, ?_, ?_⟩
    · intro p hw
      subst hw
      simp [getExistingPath, h1, h2]
    · intro e hw hcode hinst
      subst hw
      simp [getExistingPath, h1, h2, hcode, hinst]
    · intro e hw hcode hinst
      subst hw
      simp [getExistingPath, h1, h2, hcode, hinst]
    · intro e hw hcode
      subst hw
      simp [getExistingPath, h1, h2, hcode]

/-- C6 witness: with every flag off and installation disabled, a
search-path miss escalates with exit code 127 attached to the error. -/
theorem C6_getExistingPath_witness :
    getExistingPath "quux" opts6 (.failed ⟨"ENOENT", none⟩) = .error ⟨"ENOENT", some 127⟩ :=
  ((C6_getExistingPath opts6 "quux" (.failed ⟨"ENOENT", none⟩)).2.2 rfl rfl).2.2.1
    ⟨"ENOENT", none⟩ rfl rfl rfl

/-- C9: with the in-process loader available, the Executor chooses the
in-process takeover strategy exactly when the classifier produced a
loadable target, shell execution is not forced, and the target differs
from the currently running entry script; in every other case, including
an absent target, it spawns. -/
theorem C9_takeover_strategy (fsys : String → Option FsNode) (isLocal win32 : Bool)
    (fuel : Nat) (tgt existing : Option String) (shell : Bool) (argv1 : String)
    (hclass : findNodeScript fsys isLocal win32 fuel tgt = .ok existing) :
    (execStrategy true shell argv1 existing = .inProcess ↔
      ∃ s, existing = some s ∧ s ≠ "" ∧ shell = false ∧ s ≠ argv1) ∧
    (existing = none → execStrategy true shell argv1 existing = .spawned) := by
  refine ⟨?_, ?_⟩
  · cases existing with
    | none =>
      constructor
      · intro h
        exact ExecutionStrategy.noConfusion h
      · rintro ⟨s, hs, -, -, -⟩
        exact Option.noConfusion hs
    | some s =>
      cases shell with
      | true => simp [execStrategy]
      | false =>
        by_cases h1 : s = ""
        · subst h1
          simp [execStrategy]
        · by_cases h3 : s = argv1
          · subst h3
            simp [execStrategy]
          · simp [execStrategy, h1, h3, bne_iff_ne]
  · intro h
    subst h
    rfl

/-- C9 witness: a classified shebang script distinct from the running
entry script takes over in-process; an absent target spawns. -/
theorem C9_takeover_strategy_witness :
    execStrategy true false "/usr/lib/node_modules/npx/index.js" (some "/f") = .inProcess ∧
    execStrategy true false "/usr/lib/node_modules/npx/index.js" none = .spawned :=
  ⟨(C9_takeover_strategy fs9 false false 1 (some "/f") (some "/f") false
      "/usr/lib/node_modules/npx/index.js" (by decide)).1.mpr
      ⟨"/f", rfl, by decide, rfl, by decide⟩,
   (C9_takeover_strategy fs9 false false 1 none none false
      "/usr/lib/node_modules/npx/index.js" (by decide)).2 rfl⟩

/-- C5: after a successful install the search-path variable equals the
install binary directory, the platform separator, then the previous
value (itself the project-local directory prepended to the ambient
value), so its entries start with the install directory followed by the
project-local directory, and every lookup that the install directory can
satisfy resolves to the install directory first. -/
theorem C5_install_path_priority (win32 : Bool) (binsDir localBin ambient : String)
    (hb : sepChar win32 ∉ binsDir.data) (hl : sepChar win32 ∉ localBin.data) :
    (prependInstallPath binsDir (prependLocalPath localBin ambient win32) win32 =
      binsDir ++ PATH_SEP win32 ++ (localBin ++ PATH_SEP win32 ++ ambient)) ∧
    (pathEntries win32 (prependInstallPath binsDir (prependLocalPath localBin ambient win32) win32) =
      binsDir :: localBin :: pathEntries win32 ambient) ∧
    (∀ provides : String → Bool, provides binsDir = true →
      lookupPath win32 (prependInstallPath binsDir (prependLocalPath localBin ambient win32) win32)
        provides = some binsDir) := by
  have hsep : (PATH_SEP win32).data = [sepChar win32] := by
    cases win32 <;> rfl
  have hdata : (prependInstallPath binsDir (prependLocalPath localBin ambient win32) win32).data
      = binsDir.data ++ sepChar win32 :: (localBin.data ++ sepChar win32 :: ambient.data) := by
    simp [prependInstallPath, prependLocalPath, String.data_append, hsep]
  have hentries : pathEntries win32
      (prependInstallPath binsDir (prependLocalPath localBin ambient win32) win32)
      = binsDir :: localBin :: pathEntries win32 ambient := by
    unfold pathEntries
    rw [hdata, splitSep_append _ _ _ hb, splitSep_append _ _ _ hl]
    simp
  refine ⟨rfl, hentries, ?_⟩
  intro provides hp
  unfold lookupPath
  rw [hentries]
  simp [List.find?, hp]

/-- C5 witness: on POSIX, after prepending the project-local directory
and then the install directory, a lookup satisfied by the install
directory resolves to the install directory. -/
theorem C5_install_path_priority_witness :
    lookupPath false
      (prependInstallPath "/cache/_npx/42/bin"
        (prependLocalPath "/proj/node_modules/.bin" "/usr/bin:/bin" false) false)
      (fun d => d == "/cache/_npx/42/bin") = some "/cache/_npx/42/bin" :=
  (C5_install_path_priority false "/cache/_npx/42/bin" "/proj/node_modules/.bin" "/usr/bin:/bin"
    (by decide) (by decide)).2.2 (fun d => d == "/cache/_npx/42/bin") (by decide)
